import Mathlib

/-!
# BeatMaker (src/script.js) — shallow embedding

The repository is a browser step-sequencer drum machine implemented by one
class `BeatMaker`.  We embed the sequencer core: the pattern grid, the
transport (play / pause / stop / tick / tempo), the mute set, and the
per-track sound configuration with its variant table.  DOM manipulation
(class lists, query selectors, visualizer animation) is presentation glue
and is not part of the state; calls to `playSound` are modelled as emitted
trigger events (the audible no-op when the audio context is absent happens
inside `playSound` in the source and does not change which calls are made).

JavaScript specifics that matter here and how we render them:
* `this.pattern[track]` is an object lookup: an unknown track name yields
  `undefined`, and indexing / assigning through `undefined` throws a
  `TypeError`.  We model errors with `Except JsError`.
* An in-bounds JS array cell holds a boolean; an out-of-range read yields
  `undefined`, which is falsy, and an out-of-range write extends the array.
  Under `!` and `if`, a row therefore behaves exactly like a total function
  `Int → Bool` that defaults to `false`; that is our model of a row.
* `generateSteps` creates one DOM button per track for steps 0–15 only, so
  for a known track and an out-of-range step the `querySelector` in
  `toggleStep` returns `null` and the `classList` access on it throws a
  `TypeError` — after the cell flip and before the `playSound` audition.
  Mutations made before a throw persist when the exception propagates.
* `setInterval` returns a fresh handle; `clearInterval` on a handle removes
  it, and `clearInterval(null)` is a no-op.  We model the host's timer
  table as the list `liveTimers` of handles of currently active repeating
  timers, together with a fresh-handle counter.
* `updateTempo` receives the slider's string and applies `parseInt`; we
  take the parsed integer as the input.
-/

/-- The four waveform types used by the oscillator (`type` fields). -/
inductive Waveform
  | sine
  | square
  | sawtooth
  | triangle
  deriving DecidableEq, Repr

/-- The four known tracks, in the fixed order of `this.tracks`. -/
inductive Track
  | kick
  | snare
  | hihat
  | crash
  deriving DecidableEq, Repr

/-- The string name of a track, as stored in `this.tracks`. -/
def trackName : Track → String
  | .kick => "kick"
  | .snare => "snare"
  | .hihat => "hihat"
  | .crash => "crash"

/-- Object-key lookup `this.pattern[track]`: which known track (if any) a
string names. -/
def parseTrack (name : String) : Option Track :=
  if name = "kick" then some .kick
  else if name = "snare" then some .snare
  else if name = "hihat" then some .hihat
  else if name = "crash" then some .crash
  else none

/-- The fixed track order `this.tracks = ['kick','snare','hihat','crash']`. -/
def tracksList : List Track := [.kick, .snare, .hihat, .crash]

/-- `this.steps = 16`. -/
def stepsPerLoop : Nat := 16

/-- One entry of `this.soundConfig`: `{ frequency, type, decay }`. -/
structure SoundParams where
  frequency : Int
  type : Waveform
  decay : Rat
  deriving DecidableEq, Repr

/-- The JavaScript error raised by the surrounding runtime (indexing
through `undefined`). -/
inductive JsError
  | typeError
  deriving DecidableEq, Repr

/-- The mutable state of a `BeatMaker` instance (core fields only; DOM
handles are presentation and carry no sequencer state). -/
structure BMState where
  /-- `this.pattern`: per track, the row of booleans; out-of-range and
  hole reads are `undefined`, which is falsy, so a row is a total
  function defaulting to `false`. -/
  pattern : Track → Int → Bool
  /-- `this.currentStep`. -/
  currentStep : Nat
  /-- `this.isPlaying`. -/
  isPlaying : Bool
  /-- `this.tempo`. -/
  tempo : Int
  /-- `this.intervalId` (`null` = `none`). -/
  intervalId : Option Nat
  /-- `this.mutedTracks` (a `Set` of track names, as membership). -/
  mutedTracks : Track → Bool
  /-- `this.soundConfig`. -/
  soundConfig : Track → SoundParams
  /-- Handles of repeating timers currently alive in the host. -/
  liveTimers : List Nat
  /-- Fresh-handle supply for `setInterval`. -/
  nextTimerId : Nat

/-- The initial `this.soundConfig` table from the constructor. -/
def initSoundConfig : Track → SoundParams
  | .kick => { frequency := 60, type := .sine, decay := 0.5 }
  | .snare => { frequency := 200, type := .square, decay := 0.3 }
  | .hihat => { frequency := 8000, type := .square, decay := 0.1 }
  | .crash => { frequency := 300, type := .sawtooth, decay := 1.0 }

/-- The state after the constructor runs. -/
def initState : BMState where
  pattern := fun _ _ => false
  currentStep := 0
  isPlaying := false
  tempo := 120
  intervalId := none
  mutedTracks := fun _ => false
  soundConfig := initSoundConfig
  liveTimers := []
  nextTimerId := 0

/-- `toggleStep(track, step)`.  Source: flip
`this.pattern[track][step] = !this.pattern[track][step]`, look up the DOM
button via `querySelector` and toggle its `active` class, then
`if (this.pattern[track][step])` call `this.playSound(track)`.  An
unknown track name makes `this.pattern[track]` `undefined` and the
indexing throws a `TypeError` before any mutation.  There is no range
check on `step`: the cell is flipped for any integer step, but buttons
exist only for steps 0–15, so for an out-of-range step the
`querySelector` returns `null` and the `classList` access throws a
`TypeError` after the flip and before the audition.  The first component
is the state after the call (object mutations persist when the exception
propagates); the second is the outcome: the tracks auditioned by
`playSound`, or the thrown error. -/
def toggleStep (s : BMState) (track : String) (step : Int) :
    BMState × Except JsError (List Track) :=
  match parseTrack track with
  | none => (s, .error .typeError)
  | some t =>
    let newVal := ! s.pattern t step
    let s' := { s with
      pattern := fun t' i => if t' = t ∧ i = step then newVal else s.pattern t' i }
    if 0 ≤ step ∧ step < (stepsPerLoop : Int) then
      (s', .ok (if newVal then [t] else []))
    else
      (s', .error .typeError)

/-- `play()`.  Sets `isPlaying`, updates the play button (presentation),
and installs a repeating timer `this.intervalId = setInterval(...)`.
Note: it does NOT clear any pre-existing timer. -/
def play (s : BMState) : BMState :=
  let id := s.nextTimerId
  { s with
    isPlaying := true
    intervalId := some id
    liveTimers := id :: s.liveTimers
    nextTimerId := id + 1 }

/-- `pause()`.  Clears `isPlaying`; `if (this.intervalId)` clears the
timer and nulls the handle; the step-highlight clearing is DOM-only. -/
def pause (s : BMState) : BMState :=
  let s' := { s with isPlaying := false }
  match s.intervalId with
  | some id => { s' with liveTimers := s'.liveTimers.erase id, intervalId := none }
  | none => s'

/-- `stop()`: `this.pause(); this.currentStep = 0;`. -/
def stop (s : BMState) : BMState :=
  { pause s with currentStep := 0 }

/-- `togglePlay()`: `if (this.isPlaying) this.pause(); else this.play();`. -/
def togglePlay (s : BMState) : BMState :=
  if s.isPlaying then pause s else play s

/-- `playStep()` (the tick body).  For each track in `this.tracks` order,
`if (this.pattern[track][this.currentStep] && !this.mutedTracks.has(track))`
call `playSound(track)` (plus DOM/visualizer effects); afterwards
`this.currentStep = (this.currentStep + 1) % this.steps`.  Returns the new
state and the tracks triggered, in iteration order. -/
def playStep (s : BMState) : BMState × List Track :=
  let fired := tracksList.foldl
    (fun acc t =>
      if s.pattern t (s.currentStep : Int) && ! s.mutedTracks t then acc ++ [t] else acc)
    []
  ({ s with currentStep := (s.currentStep + 1) % stepsPerLoop }, fired)

/-- `toggleMute(track)`: flip membership of the track in `mutedTracks`. -/
def toggleMute (s : BMState) (t : Track) : BMState :=
  { s with mutedTracks := fun t' => if t' = t then ! s.mutedTracks t else s.mutedTracks t' }

/-- The `variations` table in `changeSound`, keyed by the variant id
alone: each entry overrides `frequency` and `type` only. -/
def variations : List (String × Int × Waveform) :=
  [("kick1", 60, .sine), ("kick2", 40, .triangle), ("kick3", 80, .square),
   ("snare1", 200, .square), ("snare2", 300, .sawtooth), ("snare3", 150, .triangle),
   ("hihat1", 8000, .square), ("hihat2", 10000, .sawtooth), ("hihat3", 6000, .triangle),
   ("crash1", 300, .sawtooth), ("crash2", 400, .square)]

/-- `changeSound(track, soundId)`: `if (variations[soundId])` merge
`{ ...this.soundConfig[track], ...variations[soundId] }` — the spread
overrides `frequency` and `type` and keeps `decay`; an unknown id is a
silent no-op. -/
def changeSound (s : BMState) (track : Track) (soundId : String) : BMState :=
  match variations.lookup soundId with
  | some (f, w) =>
    { s with soundConfig := fun t =>
        if t = track then
          { frequency := f, type := w, decay := (s.soundConfig track).decay }
        else s.soundConfig t }
  | none => s

/-- `updateTempo(newTempo)`: `this.tempo = parseInt(newTempo)` with no
guard; then `if (this.isPlaying)` clear the current interval and install a
fresh one at the new tempo (`clearInterval(null)` would be a no-op). -/
def updateTempo (s : BMState) (newTempo : Int) : BMState :=
  let s' := { s with tempo := newTempo }
  if s'.isPlaying then
    let cleared :=
      match s'.intervalId with
      | some id => { s' with liveTimers := s'.liveTimers.erase id }
      | none => s'
    let id := cleared.nextTimerId
    { cleared with
      intervalId := some id
      liveTimers := id :: cleared.liveTimers
      nextTimerId := id + 1 }
  else s'

/-- `clearAll()`: fill every pattern row with `false` (plus DOM class
removal), then `this.stop()`. -/
def clearAll (s : BMState) : BMState :=
  stop { s with pattern := fun _ _ => false }

/-- Iterate the tick body `n` times (state part only). -/
def ticks (s : BMState) : Nat → BMState
  | 0 => s
  | n + 1 => ticks (playStep s).1 n

/-! ## Helper lemmas -/

/-- Looking up a known track's own name finds that track. -/
theorem parseTrack_trackName (t : Track) : parseTrack (trackName t) = some t := by
  cases t <;> rfl

/-- Every track occurs in the fixed track order. -/
theorem mem_tracksList (t : Track) : t ∈ tracksList := by
  cases t <;> simp [tracksList]

/-- The accumulating loop of `playStep` computes a filter of the track
list (in order). -/
theorem foldl_if_append (p : Track → Bool) (l acc : List Track) :
    l.foldl (fun acc t => if p t then acc ++ [t] else acc) acc =
      acc ++ l.filter p := by
  induction l generalizing acc with
  | nil => simp
  | cons x xs ih =>
    by_cases h : p x <;> simp [List.foldl_cons, h, ih]

/-! ## Claim theorems -/

/-- C5: `clearAll()`, called in any state, sets every pattern cell of
every track to false, resets `currentStep` to 0, and sets running to
false (it performs the pattern clear and then the stop transition, which
also cancels any active timer). -/
theorem clearAll_clears (s : BMState) :
    (∀ t i, (clearAll s).pattern t i = false) ∧
    (clearAll s).currentStep = 0 ∧
    (clearAll s).isPlaying = false ∧
    (clearAll s).intervalId = none ∧
    clearAll s = stop { s with pattern := fun _ _ => false } := by
  cases h : s.intervalId <;> simp [clearAll, stop, pause, h]

/-- C6: `stop()` equals `pause()` followed by setting `currentStep` to 0;
`pause()` halts advancement (cancels the timer, clears `isPlaying`) while
preserving `currentStep`, so `pause()` then `start()` resumes from the
same step, while `stop()` then `start()` resumes from step 0. -/
theorem stop_is_pause_then_rewind (s : BMState) :
    stop s = { pause s with currentStep := 0 } ∧
    (pause s).currentStep = s.currentStep ∧
    (pause s).isPlaying = false ∧
    (pause s).intervalId = none ∧
    (play (pause s)).isPlaying = true ∧
    (play (pause s)).currentStep = s.currentStep ∧
    (play (stop s)).isPlaying = true ∧
    (play (stop s)).currentStep = 0 := by
  cases h : s.intervalId <;> simp [stop, pause, play, h]

/-- C9: for every known track and in-range step, toggling the same cell
twice restores the entire pattern grid to its original contents. -/
theorem toggle_involution (s : BMState) (t : Track) (step : Int)
    (h0 : 0 ≤ step) (h1 : step < (stepsPerLoop : Int)) :
    (toggleStep s (trackName t) step).2 =
      Except.ok (if s.pattern t step then [] else [t]) ∧
    (toggleStep (toggleStep s (trackName t) step).1 (trackName t) step).2 =
      Except.ok (if s.pattern t step then [t] else []) ∧
    (toggleStep (toggleStep s (trackName t) step).1 (trackName t) step).1.pattern
      = s.pattern := by
  have hc : 0 ≤ step ∧ step < (stepsPerLoop : Int) := ⟨h0, h1⟩
  refine ⟨?_, ?_, ?_⟩
  · cases hp : s.pattern t step <;>
      simp [toggleStep, parseTrack_trackName, hc, hp]
  · cases hp : s.pattern t step <;>
      simp [toggleStep, parseTrack_trackName, hc, hp]
  · simp only [toggleStep, parseTrack_trackName, hc, and_self, if_true]
    funext t' i
    by_cases h : t' = t ∧ i = step
    · simp [h]
    · simp [h]

/-- Witness for C9 at track `kick`, step 3, from the initial state. -/
theorem toggle_involution_witness :
    0 ≤ (3 : Int) ∧ (3 : Int) < (stepsPerLoop : Int) ∧
    ((toggleStep initState (trackName Track.kick) 3).2 =
      Except.ok (if initState.pattern Track.kick 3 then [] else [Track.kick]) ∧
     (toggleStep (toggleStep initState (trackName Track.kick) 3).1
        (trackName Track.kick) 3).2 =
      Except.ok (if initState.pattern Track.kick 3 then [Track.kick] else []) ∧
     (toggleStep (toggleStep initState (trackName Track.kick) 3).1
        (trackName Track.kick) 3).1.pattern = initState.pattern) :=
  ⟨by decide, by decide,
   toggle_involution initState Track.kick 3 (by decide) (by decide)⟩

/-- C7: `changeSound(track, variantId)` is a silent no-op when the
variant id is absent from the table; when present it overwrites only the
track's frequency and waveform, keeping its decay and all other state,
and in particular `changeSound('kick','kick2')` yields waveform triangle
and frequency 40 with decay unchanged. -/
theorem changeSound_behaviour (s : BMState) (t : Track) (v : String) :
    (variations.lookup v = none → changeSound s t v = s) ∧
    (∀ f w, variations.lookup v = some (f, w) →
      (changeSound s t v).soundConfig t =
        { frequency := f, type := w, decay := (s.soundConfig t).decay } ∧
      (∀ t', t' ≠ t → (changeSound s t v).soundConfig t' = s.soundConfig t') ∧
      (changeSound s t v).pattern = s.pattern ∧
      (changeSound s t v).currentStep = s.currentStep ∧
      (changeSound s t v).isPlaying = s.isPlaying) ∧
    (changeSound s Track.kick "kick2").soundConfig Track.kick =
      { frequency := 40, type := Waveform.triangle,
        decay := (s.soundConfig Track.kick).decay } := by
  refine ⟨fun hn => ?_, fun f w hf => ?_, ?_⟩
  · simp [changeSound, hn]
  · refine ⟨by simp [changeSound, hf], fun t' ht' => by simp [changeSound, hf, ht'],
      by simp [changeSound, hf], by simp [changeSound, hf], by simp [changeSound, hf]⟩
  · rfl

/-- Witness for C7: applying variant `kick2` to the kick track from the
initial state. -/
theorem changeSound_behaviour_witness :
    (changeSound initState Track.kick "kick2").soundConfig Track.kick =
      { frequency := 40, type := Waveform.triangle,
        decay := (initState.soundConfig Track.kick).decay } :=
  (changeSound_behaviour initState Track.kick "kick2").2.2

/-- C10: the variant table is keyed by variant id alone, so any variant
entry applies to any track; in particular `changeSound('kick','snare2')`
sets kick's frequency to 300 and waveform to sawtooth. -/
theorem variants_keyed_by_id (s : BMState) (t : Track) (v : String)
    (f : Int) (w : Waveform) (h : variations.lookup v = some (f, w)) :
    (changeSound s t v).soundConfig t =
      { frequency := f, type := w, decay := (s.soundConfig t).decay } ∧
    (changeSound s Track.kick "snare2").soundConfig Track.kick =
      { frequency := 300, type := Waveform.sawtooth,
        decay := (s.soundConfig Track.kick).decay } := by
  exact ⟨by simp [changeSound, h], by rfl⟩

/-- Witness for C10: `snare2` applied to the kick track from the initial
state. -/
theorem variants_keyed_by_id_witness :
    (changeSound initState Track.kick "snare2").soundConfig Track.kick =
      { frequency := 300, type := Waveform.sawtooth,
        decay := (initState.soundConfig Track.kick).decay } :=
  (variants_keyed_by_id initState Track.kick "snare2" 300 Waveform.sawtooth
    (by decide)).2

/-- Iterating ticks advances `currentStep` by one per tick, modulo the
loop length. -/
theorem ticks_currentStep (s : BMState) (n : Nat)
    (h : s.currentStep < stepsPerLoop) :
    (ticks s n).currentStep = (s.currentStep + n) % stepsPerLoop := by
  induction n generalizing s with
  | zero => simpa [ticks] using (Nat.mod_eq_of_lt h).symm
  | succ n ih =>
    rw [ticks, ih (playStep s).1 (by simp [playStep, stepsPerLoop]; omega)]
    simp only [playStep, stepsPerLoop]
    omega

/-- C4: on each tick the transport triggers exactly the tracks whose
pattern cell at the current step is active and that are not muted,
iterating the tracks in their fixed order; it then advances `currentStep`
to `(currentStep + 1) % 16`, so over consecutive ticks the step sequence
increments by one modulo 16 with no skips. -/
theorem tick_behaviour (s : BMState) (h : s.currentStep < stepsPerLoop) :
    (playStep s).2 =
      tracksList.filter
        (fun t => s.pattern t (s.currentStep : Int) && ! s.mutedTracks t) ∧
    (∀ t : Track, t ∈ (playStep s).2 ↔
      (s.pattern t (s.currentStep : Int) = true ∧ s.mutedTracks t = false)) ∧
    (playStep s).1.currentStep = (s.currentStep + 1) % stepsPerLoop ∧
    (∀ n : Nat, (ticks s n).currentStep = (s.currentStep + n) % stepsPerLoop) := by
  refine ⟨?_, fun t => ?_, rfl, fun n => ticks_currentStep s n h⟩
  · rw [show (playStep s).2 = tracksList.foldl
        (fun acc t => if s.pattern t (s.currentStep : Int) && ! s.mutedTracks t
          then acc ++ [t] else acc) [] from rfl,
      foldl_if_append]
    simp
  · rw [show (playStep s).2 = tracksList.foldl
        (fun acc t => if s.pattern t (s.currentStep : Int) && ! s.mutedTracks t
          then acc ++ [t] else acc) [] from rfl,
      foldl_if_append]
    simp [List.mem_filter, mem_tracksList]

/-- Witness for C4: one tick from the state in which (kick, 0) is active,
snare is muted with (snare, 0) active, from step 0. -/
theorem tick_behaviour_witness :
    (let s := { initState with
       pattern := fun t i => (t = Track.kick ∨ t = Track.snare) ∧ i = 0
       mutedTracks := fun t => t = Track.snare };
    (playStep s).2 =
      tracksList.filter
        (fun t => s.pattern t (s.currentStep : Int) && ! s.mutedTracks t) ∧
    (∀ t : Track, t ∈ (playStep s).2 ↔
      (s.pattern t (s.currentStep : Int) = true ∧ s.mutedTracks t = false)) ∧
    (playStep s).1.currentStep = (s.currentStep + 1) % stepsPerLoop ∧
    (∀ n : Nat, (ticks s n).currentStep = (s.currentStep + n) % stepsPerLoop)) :=
  tick_behaviour _ (by decide)

/-- C8: mute is consulted only on the transport playback path: toggling
an in-range cell of any known track to active auditions the sound
regardless of the track's mute state (toggling to inactive auditions
nothing), while a tick never triggers a muted track. -/
theorem mute_only_on_playback (s : BMState) (t : Track) (i : Int)
    (h0 : 0 ≤ i) (h1 : i < (stepsPerLoop : Int)) :
    (s.pattern t i = false →
      (toggleStep s (trackName t) i).2 = Except.ok [t]) ∧
    (s.pattern t i = true →
      (toggleStep s (trackName t) i).2 = Except.ok ([] : List Track)) ∧
    (s.mutedTracks t = true → t ∉ (playStep s).2) := by
  have hc : 0 ≤ i ∧ i < (stepsPerLoop : Int) := ⟨h0, h1⟩
  refine ⟨fun hp => ?_, fun hp => ?_, fun hm hmem => ?_⟩
  · simp [toggleStep, parseTrack_trackName, hc, hp]
  · simp [toggleStep, parseTrack_trackName, hc, hp]
  · rw [show (playStep s).2 = tracksList.foldl
        (fun acc u => if s.pattern u (s.currentStep : Int) && ! s.mutedTracks u
          then acc ++ [u] else acc) [] from rfl,
      foldl_if_append] at hmem
    simp [List.mem_filter, hm] at hmem

/-- Witness for C8 at the state in which snare is muted: toggling
(snare, 0) to active still auditions snare, and a tick from a state where
(snare, 0) is active never triggers the muted snare. -/
theorem mute_only_on_playback_witness :
    (toggleStep (toggleMute initState Track.snare) (trackName Track.snare) 0).2 =
      Except.ok [Track.snare] ∧
    Track.snare ∉
      (playStep { toggleMute initState Track.snare with
        pattern := fun t i => t = Track.snare ∧ i = 0 }).2 := by
  refine ⟨(mute_only_on_playback (toggleMute initState Track.snare)
      Track.snare 0 (by decide) (by decide)).1 (by decide), ?_⟩
  exact (mute_only_on_playback
      { toggleMute initState Track.snare with
        pattern := fun t i => t = Track.snare ∧ i = 0 }
      Track.snare 0 (by decide) (by decide)).2.2 (by decide)

/-- C1 counterexample: `toggleStep('kick', 16)` with step = stepsPerLoop
does not leave the pattern grid unchanged: the cell at (kick, 16) is
flipped from false to true before the null DOM button lookup throws a
`TypeError` — an uncaught runtime error after the mutation, not a clean
`InvalidArgument` failure with the core state intact. -/
theorem toggle_out_of_range_not_rejected :
    (toggleStep initState "kick" 16).1.pattern Track.kick 16 = true ∧
    initState.pattern Track.kick 16 = false ∧
    (toggleStep initState "kick" 16).2 = Except.error JsError.typeError := by
  refine ⟨?_, ?_, ?_⟩ <;> rfl

/-- C1 amended: `toggleStep` performs no argument validation.  An unknown
track name throws a `TypeError` (not an `InvalidArgument` failure) before
any mutation; for a known track and ANY integer step the cell at
(track, step) is flipped (an absent cell reads as false and becomes
true) and every other cell and the transport state are untouched; when
the step is in [0, 16) the call then completes and auditions the sound
exactly when the new value is true, while for an out-of-range step the
flip persists but the null DOM button lookup throws a `TypeError` and no
audition happens. -/
theorem toggle_no_validation (s : BMState) (track : String) (step : Int) :
    (parseTrack track = none →
      toggleStep s track step = (s, Except.error JsError.typeError)) ∧
    (∀ t, parseTrack track = some t →
      (toggleStep s track step).1.pattern t step = ! s.pattern t step ∧
      (∀ t' i, ¬(t' = t ∧ i = step) →
        (toggleStep s track step).1.pattern t' i = s.pattern t' i) ∧
      (0 ≤ step ∧ step < (stepsPerLoop : Int) →
        (toggleStep s track step).2 =
          Except.ok (if s.pattern t step then [] else [t])) ∧
      (¬(0 ≤ step ∧ step < (stepsPerLoop : Int)) →
        (toggleStep s track step).2 = Except.error JsError.typeError) ∧
      ((toggleStep s track step).1.currentStep = s.currentStep ∧
       (toggleStep s track step).1.isPlaying = s.isPlaying ∧
       (toggleStep s track step).1.tempo = s.tempo ∧
       (toggleStep s track step).1.intervalId = s.intervalId ∧
       (toggleStep s track step).1.liveTimers = s.liveTimers)) := by
  refine ⟨fun hn => ?_, fun t ht =>
    ⟨?_, fun t' i hne => ?_, fun hcc => ?_, fun hcon => ?_, ?_, ?_, ?_, ?_, ?_⟩⟩
  · simp [toggleStep, hn]
  · by_cases hc : 0 ≤ step ∧ step < (stepsPerLoop : Int) <;>
      simp [toggleStep, ht, hc]
  · by_cases hc : 0 ≤ step ∧ step < (stepsPerLoop : Int) <;>
      simp [toggleStep, ht, hc, hne]
  · cases hp : s.pattern t step <;> simp [toggleStep, ht, hcc, hp]
  · simp [toggleStep, ht, hcon]
  all_goals by_cases hc : 0 ≤ step ∧ step < (stepsPerLoop : Int) <;>
    simp [toggleStep, ht, hc]

/-- Witness for C1 (amended) at the unknown track name "tom" and at the
out-of-range step 20 of track hihat: the cell flips, yet the call throws
instead of auditioning. -/
theorem toggle_no_validation_witness :
    toggleStep initState "tom" 3 = (initState, Except.error JsError.typeError) ∧
    (toggleStep initState "hihat" 20).1.pattern Track.hihat 20 =
      ! initState.pattern Track.hihat 20 ∧
    (toggleStep initState "hihat" 20).2 = Except.error JsError.typeError :=
  ⟨(toggle_no_validation initState "tom" 3).1 (by decide),
   ((toggle_no_validation initState "hihat" 20).2 Track.hihat (by decide)).1,
   ((toggle_no_validation initState "hihat" 20).2 Track.hihat
      (by decide)).2.2.2.1 (by decide)⟩

/-- C2 counterexample: `updateTempo(0)` does not fail and does not leave
the tempo unchanged — it sets the tempo to 0 (it was 120). -/
theorem setTempo_zero_accepted :
    (updateTempo initState 0).tempo = 0 ∧ initState.tempo = 120 := by
  constructor <;> rfl

/-- C2 amended: `updateTempo(bpm)` has no positivity guard: for every
integer bpm (including 0 and negatives) it sets the tempo to bpm; when
not playing the timer state is untouched, and when playing it cancels the
current timer and installs a fresh one; pattern and step are never
touched. -/
theorem updateTempo_no_guard (s : BMState) (bpm : Int) :
    (updateTempo s bpm).tempo = bpm ∧
    (updateTempo s bpm).isPlaying = s.isPlaying ∧
    (updateTempo s bpm).currentStep = s.currentStep ∧
    (updateTempo s bpm).pattern = s.pattern ∧
    (s.isPlaying = false →
      (updateTempo s bpm).intervalId = s.intervalId ∧
      (updateTempo s bpm).liveTimers = s.liveTimers) ∧
    (s.isPlaying = true →
      (updateTempo s bpm).intervalId = some s.nextTimerId ∧
      (updateTempo s bpm).liveTimers =
        s.nextTimerId ::
          (match s.intervalId with
           | some id => s.liveTimers.erase id
           | none => s.liveTimers)) := by
  cases hp : s.isPlaying <;> cases hi : s.intervalId <;>
    simp [updateTempo, hp, hi]

/-- Witness for C2 (amended): setting tempo 0 while playing from the
initial state replaces the timer and stores the non-positive tempo. -/
theorem updateTempo_no_guard_witness :
    (updateTempo (play initState) 0).tempo = 0 ∧
    (updateTempo (play initState) 0).intervalId =
      some (play initState).nextTimerId := by
  have h := updateTempo_no_guard (play initState) 0
  exact ⟨h.1, (h.2.2.2.2.2 (by decide)).1⟩

/-- The collaborator-facing commands of the core (as wired by the UI:
the play button dispatches `togglePlay`), plus the internal timer tick. -/
inductive Cmd
  | togglePlayCmd
  | pauseCmd
  | stopCmd
  | setTempoCmd (bpm : Int)
  | clearAllCmd
  | toggleMuteCmd (t : Track)
  | toggleStepCmd (track : String) (step : Int)
  | changeSoundCmd (t : Track) (v : String)
  | tickCmd

/-- Execute one command on the state (the state component of `toggleStep`
already records the mutation that persists when its `TypeError`
propagates out of the handler). -/
def run (s : BMState) : Cmd → BMState
  | .togglePlayCmd => togglePlay s
  | .pauseCmd => pause s
  | .stopCmd => stop s
  | .setTempoCmd bpm => updateTempo s bpm
  | .clearAllCmd => clearAll s
  | .toggleMuteCmd t => toggleMute s t
  | .toggleStepCmd track step => (toggleStep s track step).1
  | .changeSoundCmd t v => changeSound s t v
  | .tickCmd => (playStep s).1

/-- Timer-handle sanity: the live timers of the host are exactly the one
referenced by `intervalId` (if any), every live handle is below the fresh
counter, and a non-playing state holds no handle. -/
def timerOk (s : BMState) : Prop :=
  (∀ id ∈ s.liveTimers, id < s.nextTimerId) ∧
  s.liveTimers = (match s.intervalId with
                  | some id => [id]
                  | none => []) ∧
  (s.isPlaying = false → s.intervalId = none)

/-- `timerOk` holds initially. -/
theorem timerOk_init : timerOk initState := by
  refine ⟨?_, rfl, fun _ => rfl⟩
  intro id h
  simp [initState] at h

/-- Every command preserves `timerOk`. -/
theorem timerOk_run (s : BMState) (c : Cmd) (h : timerOk s) :
    timerOk (run s c) := by
  obtain ⟨hbound, hlive, hstop⟩ := h
  cases c with
  | togglePlayCmd =>
    cases hp : s.isPlaying with
    | false =>
      have hnone := hstop hp
      refine ⟨?_, ?_, ?_⟩ <;>
        simp [run, togglePlay, play, hp, hnone, hlive, hnone ▸ hlive]
    | true =>
      cases hi : s.intervalId with
      | none =>
        refine ⟨?_, ?_, ?_⟩ <;>
          simp [run, togglePlay, pause, hp, hi, hi ▸ hlive]
      | some id =>
        refine ⟨?_, ?_, ?_⟩ <;>
          simp [run, togglePlay, pause, hp, hi, hi ▸ hlive]
  | pauseCmd =>
    cases hi : s.intervalId <;>
      refine ⟨?_, ?_, ?_⟩ <;>
        simp [run, pause, hi, hi ▸ hlive]
  | stopCmd =>
    cases hi : s.intervalId <;>
      refine ⟨?_, ?_, ?_⟩ <;>
        simp [run, stop, pause, hi, hi ▸ hlive]
  | setTempoCmd bpm =>
    cases hp : s.isPlaying with
    | false =>
      refine ⟨?_, ?_, ?_⟩ <;>
        simp [run, updateTempo, hp, hlive, hstop hp, hbound, hstop]
    | true =>
      cases hi : s.intervalId with
      | none =>
        refine ⟨?_, ?_, ?_⟩ <;>
          simp [run, updateTempo, hp, hi, hi ▸ hlive]
      | some id =>
        refine ⟨?_, ?_, ?_⟩ <;>
          simp [run, updateTempo, hp, hi, hi ▸ hlive]
  | clearAllCmd =>
    cases hi : s.intervalId <;>
      refine ⟨?_, ?_, ?_⟩ <;>
        simp [run, clearAll, stop, pause, hi, hi ▸ hlive]
  | toggleMuteCmd t =>
    exact ⟨hbound, hlive, hstop⟩
  | toggleStepCmd track step =>
    cases hpt : parseTrack track with
    | none => simpa [run, toggleStep, hpt] using ⟨hbound, hlive, hstop⟩
    | some t =>
      by_cases hc : 0 ≤ step ∧ step < (stepsPerLoop : Int) <;>
        simpa [run, toggleStep, hpt, hc] using ⟨hbound, hlive, hstop⟩
  | changeSoundCmd t v =>
    cases hl : variations.lookup v with
    | none => simpa [run, changeSound, hl] using ⟨hbound, hlive, hstop⟩
    | some fw => simpa [run, changeSound, hl] using ⟨hbound, hlive, hstop⟩
  | tickCmd =>
    exact ⟨hbound, hlive, hstop⟩

/-- `timerOk` bounds the number of live timers by one. -/
theorem timerOk_le_one (s : BMState) (h : timerOk s) :
    s.liveTimers.length ≤ 1 := by
  obtain ⟨-, hlive, -⟩ := h
  cases hi : s.intervalId <;> simp [hi ▸ hlive]

/-- C3 counterexample: calling `play()` (start) twice in a row from the
initial state leaves two live repeating timers — `play()` does not cancel
a pre-existing timer. -/
theorem double_start_leaks_timer :
    (play (play initState)).liveTimers.length = 2 := by rfl

/-- C3 amended: `pause`/`stop` cancel the active timer and `setTempo`
while Playing replaces it, but `start()` itself does not cancel a
pre-existing timer; the at-most-one-live-timer invariant nevertheless
holds for every sequence of UI-reachable operations, where starting goes
through `togglePlay` (which only calls `play()` from a non-playing
state). -/
theorem at_most_one_timer (cmds : List Cmd) :
    ((cmds.foldl run initState).liveTimers).length ≤ 1 := by
  refine timerOk_le_one _ ?_
  induction cmds using List.reverseRecOn with
  | nil => exact timerOk_init
  | append_singleton cs c ih =>
    rw [List.foldl_append]
    exact timerOk_run _ c ih
